import Mathlib

/-!
Shallow embedding of the gh-overseer statistics pipeline
(src/stats.rs, src/fetcher.rs, src/main.rs, src/config.rs).

Modelling conventions:
- chrono DateTime values are modelled as integers (`Time := Int`);
  only their linear order is used by the code.
- HashMap String u64 counter maps are modelled as functions
  `String → Option Nat` (absent key = none); the code only adds
  (entry or_insert 0 += delta), and the claims restrict attention to
  exact, non-overflowing counters, so Nat is the counter type.
- HashSet String is modelled as the membership of the configured list.
- Rust str trim and substring containment are modelled on char lists
  (whitespace per Char.isWhitespace, the ASCII core of the Rust set).
-/

namespace GhOverseer

abbrev Time := Int

abbrev CounterMap := String → Option Nat

def emptyMap : CounterMap := fun _ => none

/-- Author of a record (octocrab Author, only the login field is used). -/
structure Author where
  login : String
deriving DecidableEq

/-- Review outcome state (octocrab models::pulls::ReviewState). -/
inductive ReviewState where
  | approved
  | pending
  | changesRequested
  | commented
  | dismissed
deriving DecidableEq

/-- models::issues::Issue: fields used by stats.rs. The pull_request
marker is Some exactly when the issue record is a pull request. -/
structure Issue where
  user : Author
  pull_request : Option Unit
  created_at : Time
deriving DecidableEq

/-- models::issues::Comment: fields used by stats.rs. -/
structure IssueComment where
  user : Author
  created_at : Time
  updated_at : Option Time
deriving DecidableEq

/-- models::pulls::Comment (PR line comment): fields used by stats.rs.
Its user field is optional; created_at and updated_at are mandatory. -/
structure PullComment where
  user : Option Author
  created_at : Time
  updated_at : Time
  body : String
deriving DecidableEq

/-- models::pulls::Review: fields used by stats.rs. -/
structure Review where
  user : Option Author
  submitted_at : Option Time
  state : Option ReviewState
deriving DecidableEq

/-- config.rs Review section: the fields consumed by the pipeline. -/
structure ReviewConfig where
  users : List String
  repos : List String
  lgtm_comments : List String

/-- config.rs Config (the access section carries no pipeline semantics). -/
structure Config where
  review : ReviewConfig

def Config.review_users (c : Config) : List String := c.review.users

def Config.review_repos (c : Config) : List String := c.review.repos

def Config.review_lgtm_comments (c : Config) : List String := c.review.lgtm_comments

/-- stats.rs Stats: six per-user counter maps plus the filter policy. -/
structure Stats where
  issues : CounterMap
  prs : CounterMap
  issue_comments : CounterMap
  pr_reviews : CounterMap
  lgtms : CounterMap
  labels : CounterMap
  allowed_users : List String
  lgtm_comments : List String
  start_time : Time
  end_time : Time

/-- Stats::new: empty counters, policy copied from the config. -/
def Stats.new (config : Config) (start_time end_time : Time) : Stats :=
  { issues := emptyMap
    prs := emptyMap
    issue_comments := emptyMap
    pr_reviews := emptyMap
    lgtms := emptyMap
    labels := emptyMap
    allowed_users := config.review_users
    lgtm_comments := config.review_lgtm_comments
    start_time := start_time
    end_time := end_time }

/-- Stats::within_time_range: start_time <= t && t <= end_time. -/
def Stats.within_time_range (st : Stats) (date_time : Time) : Bool :=
  decide (st.start_time ≤ date_time) && decide (date_time ≤ st.end_time)

/-- Stats::is_user_allowed: membership in the allow list. -/
def Stats.is_user_allowed (st : Stats) (user : String) : Bool :=
  st.allowed_users.contains user

/-- Rust str::contains on char lists: needle occurs as a contiguous run. -/
def containsSub : List Char → List Char → Bool
  | [], needle => needle.isEmpty
  | hay@(_ :: t), needle => needle.isPrefixOf hay || containsSub t needle

/-- Rust str::contains for strings. -/
def strContains (hay needle : String) : Bool :=
  containsSub hay.toList needle.toList

/-- Rust str::trim: drop leading and trailing whitespace. -/
def rustTrim (s : String) : String :=
  String.mk (((s.toList.dropWhile Char.isWhitespace).reverse.dropWhile
      Char.isWhitespace).reverse)

/-- Stats::is_comment_lgtm: some configured LGTM string occurs in the body. -/
def Stats.is_comment_lgtm (st : Stats) (comment : String) : Bool :=
  st.lgtm_comments.any (fun lgtm => strContains comment lgtm)

/-- entry(user).or_insert(0) += 1, the common shape of the add_* helpers. -/
def mapInc (m : CounterMap) (user : String) : CounterMap :=
  fun k => if k = user then some ((m user).getD 0 + 1) else m k

def Stats.add_issue (st : Stats) (user : String) : Stats :=
  { st with issues := mapInc st.issues user }

def Stats.add_pr (st : Stats) (user : String) : Stats :=
  { st with prs := mapInc st.prs user }

def Stats.add_issue_comment (st : Stats) (user : String) : Stats :=
  { st with issue_comments := mapInc st.issue_comments user }

def Stats.add_pr_review (st : Stats) (user : String) : Stats :=
  { st with pr_reviews := mapInc st.pr_reviews user }

def Stats.add_lgtm (st : Stats) (user : String) : Stats :=
  { st with lgtms := mapInc st.lgtms user }

def Stats.add_label (st : Stats) (user : String) : Stats :=
  { st with labels := mapInc st.labels user }

/-- Stats::merge_map: for every key of added, base.entry(key).or_insert(0)
+= delta. Keys of a map are distinct, so iteration order is immaterial and
the result is captured pointwise. -/
def merge_map (base added : CounterMap) : CounterMap :=
  fun k =>
    match added k with
    | some delta => some ((base k).getD 0 + delta)
    | none => base k

/-- Stats::merge: fold the six counter maps of other into self; the policy
fields of self are kept as they are. -/
def Stats.merge (self other : Stats) : Stats :=
  { self with
    issues := merge_map self.issues other.issues
    prs := merge_map self.prs other.prs
    issue_comments := merge_map self.issue_comments other.issue_comments
    pr_reviews := merge_map self.pr_reviews other.pr_reviews
    lgtms := merge_map self.lgtms other.lgtms
    labels := merge_map self.labels other.labels }

/-- comment.user.as_ref().map_or("", |auth| &auth.login). -/
def resolvedLogin : Option Author → String
  | some auth => auth.login
  | none => ""

/-- Stats::filter_issues: skip unless the author is allowed and the
creation time is in range. -/
def Stats.filter_issues (st : Stats) (issue : Issue) : Bool :=
  !(st.is_user_allowed issue.user.login) ||
    !(st.within_time_range issue.created_at)

/-- Stats::filter_issue_comment: in range if created_at is, or if the
optional updated_at is. -/
def Stats.filter_issue_comment (st : Stats) (comment : IssueComment) : Bool :=
  let within_time_range := st.within_time_range comment.created_at ||
    (match comment.updated_at with
     | some updated_at => st.within_time_range updated_at
     | none => false)
  !(st.is_user_allowed comment.user.login) || !within_time_range

/-- Stats::filter_pull_request_comment: author resolved from the optional
user field; in range if created_at or updated_at is. -/
def Stats.filter_pull_request_comment (st : Stats) (comment : PullComment) : Bool :=
  let within_time_range := st.within_time_range comment.created_at ||
    st.within_time_range comment.updated_at
  !(st.is_user_allowed (resolvedLogin comment.user)) || !within_time_range

/-- Stats::filter_pull_request_review: in range only when submitted_at is
present and within the window. -/
def Stats.filter_pull_request_review (st : Stats) (review : Review) : Bool :=
  let within_time_range :=
    match review.submitted_at with
    | some submitted_at => st.within_time_range submitted_at
    | none => false
  !(st.is_user_allowed (resolvedLogin review.user)) || !within_time_range

/-- Per-record body of Stats::traverse_issues. -/
def Stats.traverse_issues_step (st : Stats) (issue : Issue) : Stats :=
  if st.filter_issues issue then st
  else
    match issue.pull_request with
    | some _ => st.add_pr issue.user.login
    | none => st.add_issue issue.user.login

/-- Stats::traverse_issues. -/
def Stats.traverse_issues (st : Stats) (issues : List Issue) : Stats :=
  issues.foldl Stats.traverse_issues_step st

/-- Per-record body of Stats::traverse_issue_comments. -/
def Stats.traverse_issue_comments_step (st : Stats) (comment : IssueComment) : Stats :=
  if st.filter_issue_comment comment then st
  else st.add_issue_comment comment.user.login

/-- Stats::traverse_issue_comments. -/
def Stats.traverse_issue_comments (st : Stats) (issue_comments : List IssueComment) : Stats :=
  issue_comments.foldl Stats.traverse_issue_comments_step st

/-- Per-record body of Stats::traverse_pull_request_comments. -/
def Stats.traverse_pull_request_comments_step (st : Stats) (comment : PullComment) : Stats :=
  if st.filter_pull_request_comment comment then st
  else
    let user := resolvedLogin comment.user
    if st.is_comment_lgtm (rustTrim comment.body) then st.add_lgtm user
    else st.add_pr_review user

/-- Stats::traverse_pull_request_comments. -/
def Stats.traverse_pull_request_comments (st : Stats)
    (pull_request_comments : List PullComment) : Stats :=
  pull_request_comments.foldl Stats.traverse_pull_request_comments_step st

/-- Per-record body of Stats::traverse_pull_request_reviews. -/
def Stats.traverse_pull_request_reviews_step (st : Stats) (review : Review) : Stats :=
  if st.filter_pull_request_review review then st
  else
    let user := resolvedLogin review.user
    match review.state with
    | some ReviewState.approved => st.add_lgtm user
    | _ => st

/-- Stats::traverse_pull_request_reviews. -/
def Stats.traverse_pull_request_reviews (st : Stats) (reviews : List Review) : Stats :=
  reviews.foldl Stats.traverse_pull_request_reviews_step st

/-- Counter-map-wise equality of two Stats: the six counter maps agree
(the filter-policy fields are not compared). -/
def counter_maps_eq (a b : Stats) : Prop :=
  a.issues = b.issues ∧ a.prs = b.prs ∧ a.issue_comments = b.issue_comments ∧
    a.pr_reviews = b.pr_reviews ∧ a.lgtms = b.lgtms ∧ a.labels = b.labels

lemma merge_map_comm (a b : CounterMap) : merge_map a b = merge_map b a := by
  funext k
  simp only [merge_map]
  cases ha : a k <;> cases hb : b k <;> simp [Nat.add_comm]

lemma merge_map_assoc (a b c : CounterMap) :
    merge_map (merge_map a b) c = merge_map a (merge_map b c) := by
  funext k
  simp only [merge_map]
  cases ha : a k <;> cases hb : b k <;> cases hc : c k <;> simp <;> omega

/-- Claim C1: Stats::merge is commutative and associative on the six
counter maps, compared counter-map-wise (policy fields excluded), for
exact (non-overflowing) counters. -/
theorem merge_comm_assoc (A B C : Stats) :
    counter_maps_eq ((A.merge B).merge C) (A.merge (B.merge C)) ∧
      counter_maps_eq (A.merge B) (B.merge A) := by
  constructor
  · exact ⟨merge_map_assoc _ _ _, merge_map_assoc _ _ _, merge_map_assoc _ _ _,
      merge_map_assoc _ _ _, merge_map_assoc _ _ _, merge_map_assoc _ _ _⟩
  · exact ⟨merge_map_comm _ _, merge_map_comm _ _, merge_map_comm _ _,
      merge_map_comm _ _, merge_map_comm _ _, merge_map_comm _ _⟩

/-- The four fetch results a repository worker may receive from its
channels (main.rs 101-139); none models a recv that yields nothing. -/
structure FetchResults where
  issues_and_prs : Option (List Issue)
  issue_comments : Option (List IssueComment)
  pull_request_comments : Option (List PullComment)
  pull_request_reviews : Option (List Review)

/-- Observable outcome of one repository worker: the Stats value sent to
the merge collector (none when the worker returned without sending),
whether the no-issues warning was logged, and whether the three follow-up
fetches were started. -/
structure WorkerOutcome where
  sent : Option Stats
  warned : Bool
  further_fetches : Bool

/-- The worker task body spawned per repository (main.rs 99-148): on an
empty issues recv it warns and returns without sending; otherwise it
traverses issues, starts the three dependent fetches, folds each result
that arrives, and sends the Stats to the collector. -/
def workerRun (stats0 : Stats) (fr : FetchResults) : WorkerOutcome :=
  match fr.issues_and_prs with
  | none => { sent := none, warned := true, further_fetches := false }
  | some issues_and_prs =>
    let stats := stats0.traverse_issues issues_and_prs
    let stats :=
      match fr.issue_comments with
      | some issue_comments => stats.traverse_issue_comments issue_comments
      | none => stats
    let stats :=
      match fr.pull_request_comments with
      | some pull_request_comments =>
          stats.traverse_pull_request_comments pull_request_comments
      | none => stats
    let stats :=
      match fr.pull_request_reviews with
      | some pull_request_reviews =>
          stats.traverse_pull_request_reviews pull_request_reviews
      | none => stats
    { sent := some stats, warned := false, further_fetches := true }

/-- Rust str::split_once on char lists: split at the first occurrence of
the separator, none when the separator does not occur. -/
def splitOnce : List Char → Char → Option (List Char × List Char)
  | [], _ => none
  | x :: xs, c =>
    if x = c then some ([], xs)
    else
      match splitOnce xs c with
      | some (l, r) => some (x :: l, r)
      | none => none

/-- Fetcher::new (fetcher.rs 17-31): parse the owner/repo_name pair,
failing when the identifier has no slash. -/
def Fetcher.new (repo : String) : Except String (String × String) :=
  match splitOnce repo.toList '/' with
  | some (owner, repo_name) => Except.ok (String.mk owner, String.mk repo_name)
  | none => Except.error "invalid repo name, should be 'owner/repo_name'"

/-- The worker-construction loop of main.rs 88-93: fetchers are built one
per configured repository, and a construction failure calls
process::exit(1), which abandons the whole run (modelled as the error
branch, carrying the failing message). -/
def spawnFetchers (repos : List String) : Except String (List (String × String)) :=
  match repos with
  | [] => Except.ok []
  | repo :: rest =>
    match Fetcher.new repo with
    | Except.ok f => (spawnFetchers rest).map (fun fs => f :: fs)
    | Except.error e => Except.error e

/-- Sample configuration used to instantiate theorems at concrete inputs. -/
def cfg0 : Config := { review := { users := ["alice"], repos := ["pingcap/tidb"], lgtm_comments := ["LGTM"] } }

/-- Sample Stats with window 0..100 under cfg0. -/
def st0 : Stats := Stats.new cfg0 0 100

/-- Claim C2 counterexample: when the issues recv yields nothing, the
worker sends no Stats at all to the merge collector, so it does not
contribute an empty Aggregate; shown at a concrete worker state. -/
theorem worker_empty_fetch_cex :
    (workerRun st0 ⟨none, none, none, none⟩).sent = none ∧
      (workerRun st0 ⟨none, none, none, none⟩).sent ≠ some st0 := by
  constructor
  · rfl
  · intro h
    simp [workerRun] at h

/-- Claim C2 (amended): when the issues fetch yields nothing, the worker
logs the warning and terminates contributing nothing to the merge
collector (no Stats is sent), and the three follow-up fetches are never
started. -/
theorem worker_empty_fetch_sends_nothing (stats0 : Stats) (fr : FetchResults)
    (h : fr.issues_and_prs = none) :
    (workerRun stats0 fr).warned = true ∧ (workerRun stats0 fr).sent = none ∧
      (workerRun stats0 fr).further_fetches = false := by
  simp [workerRun, h]

/-- Witness for worker_empty_fetch_sends_nothing at a concrete input. -/
theorem worker_empty_fetch_sends_nothing_witness :
    (⟨none, some [], none, none⟩ : FetchResults).issues_and_prs = none ∧
      ((workerRun st0 ⟨none, some [], none, none⟩).warned = true ∧
        (workerRun st0 ⟨none, some [], none, none⟩).sent = none ∧
        (workerRun st0 ⟨none, some [], none, none⟩).further_fetches = false) :=
  ⟨rfl, worker_empty_fetch_sends_nothing st0 ⟨none, some [], none, none⟩ rfl⟩

/-- Claim C3 counterexample: with one well-formed and one malformed
repository identifier, worker construction for the malformed one exits
the whole process (the spawn loop ends in the error branch), so the
well-formed repository worker never contributes an Aggregate. -/
theorem malformed_repo_cex :
    Fetcher.new "pingcap/tidb" = Except.ok ("pingcap", "tidb") ∧
      Fetcher.new "badrepo" =
        Except.error "invalid repo name, should be 'owner/repo_name'" ∧
      spawnFetchers ["pingcap/tidb", "badrepo"] =
        Except.error "invalid repo name, should be 'owner/repo_name'" :=
  ⟨rfl, rfl, rfl⟩

/-- Claim C3 (amended): a malformed repository identifier (missing the
slash) is fatal at worker-construction time for the entire process: if
any configured repository fails Fetcher construction, the spawn loop ends
in process exit and no list of workers is produced. -/
theorem malformed_repo_aborts_process (repos : List String)
    (h : ∃ repo ∈ repos, ∃ e, Fetcher.new repo = Except.error e) :
    ∃ e, spawnFetchers repos = Except.error e := by
  induction repos with
  | nil => obtain ⟨r, hr, _⟩ := h; exact absurd hr (List.not_mem_nil r)
  | cons repo rest ih =>
    obtain ⟨r, hr, e, he⟩ := h
    rcases List.mem_cons.mp hr with heq | hmem
    · subst heq
      exact ⟨e, by simp [spawnFetchers, he]⟩
    · cases hf : Fetcher.new repo with
      | error e0 => exact ⟨e0, by simp [spawnFetchers, hf]⟩
      | ok f =>
        obtain ⟨e1, he1⟩ := ih ⟨r, hmem, e, he⟩
        exact ⟨e1, by simp [spawnFetchers, hf, he1, Except.map]⟩

/-- Witness for malformed_repo_aborts_process at a concrete input. -/
theorem malformed_repo_aborts_process_witness :
    (∃ repo ∈ ["pingcap/tidb", "badrepo"], ∃ e,
        Fetcher.new repo = Except.error e) ∧
      ∃ e, spawnFetchers ["pingcap/tidb", "badrepo"] = Except.error e :=
  ⟨⟨"badrepo", by simp, "invalid repo name, should be 'owner/repo_name'", rfl⟩,
    malformed_repo_aborts_process ["pingcap/tidb", "badrepo"]
      ⟨"badrepo", by simp, "invalid repo name, should be 'owner/repo_name'", rfl⟩⟩

/-- Claim C4: a record whose resolved author is not in the allow list
changes nothing: each of the four per-record traverse bodies returns the
Stats value unchanged (in particular all six counter maps are unchanged),
regardless of timestamps, body, or state. -/
theorem disallowed_author_contributes_nothing (st : Stats) :
    (∀ issue : Issue, st.is_user_allowed issue.user.login = false →
        st.traverse_issues_step issue = st) ∧
      (∀ comment : IssueComment, st.is_user_allowed comment.user.login = false →
        st.traverse_issue_comments_step comment = st) ∧
      (∀ comment : PullComment,
        st.is_user_allowed (resolvedLogin comment.user) = false →
        st.traverse_pull_request_comments_step comment = st) ∧
      (∀ review : Review,
        st.is_user_allowed (resolvedLogin review.user) = false →
        st.traverse_pull_request_reviews_step review = st) := by
  refine ⟨fun issue h => ?_, fun comment h => ?_, fun comment h => ?_,
    fun review h => ?_⟩
  · simp [Stats.traverse_issues_step, Stats.filter_issues, h]
  · simp [Stats.traverse_issue_comments_step, Stats.filter_issue_comment, h]
  · simp [Stats.traverse_pull_request_comments_step,
      Stats.filter_pull_request_comment, h]
  · simp [Stats.traverse_pull_request_reviews_step,
      Stats.filter_pull_request_review, h]

/-- Witness for disallowed_author_contributes_nothing at a concrete input. -/
theorem disallowed_author_contributes_nothing_witness :
    st0.is_user_allowed "mallory" = false ∧
      st0.traverse_issues_step ⟨⟨"mallory"⟩, none, 50⟩ = st0 :=
  ⟨by decide, (disallowed_author_contributes_nothing st0).1
    ⟨⟨"mallory"⟩, none, 50⟩ (by decide)⟩

/-- Claim C6: for a PR line comment that passes the user and time filters,
a trimmed body containing a configured LGTM substring increments lgtms at
the resolved author and leaves pr_reviews (the pr_review_comments counter)
unchanged; otherwise pr_reviews is incremented and lgtms is unchanged. -/
theorem lgtm_classification_precedence (st : Stats) (comment : PullComment)
    (hf : st.filter_pull_request_comment comment = false) :
    (st.is_comment_lgtm (rustTrim comment.body) = true →
        st.traverse_pull_request_comments_step comment =
          { st with lgtms := mapInc st.lgtms (resolvedLogin comment.user) }) ∧
      (st.is_comment_lgtm (rustTrim comment.body) = false →
        st.traverse_pull_request_comments_step comment =
          { st with pr_reviews :=
              mapInc st.pr_reviews (resolvedLogin comment.user) }) := by
  constructor <;> intro h <;>
    simp [Stats.traverse_pull_request_comments_step, hf, h, Stats.add_lgtm,
      Stats.add_pr_review]

/-- Witness for lgtm_classification_precedence at a concrete input. -/
theorem lgtm_classification_precedence_witness :
    st0.filter_pull_request_comment ⟨some ⟨"alice"⟩, 10, 10, "LGTM, thanks!"⟩ = false ∧
      st0.is_comment_lgtm (rustTrim "LGTM, thanks!") = true ∧
      st0.traverse_pull_request_comments_step
          ⟨some ⟨"alice"⟩, 10, 10, "LGTM, thanks!"⟩ =
        { st0 with lgtms := mapInc st0.lgtms "alice" } :=
  ⟨by decide, by decide,
    (lgtm_classification_precedence st0 ⟨some ⟨"alice"⟩, 10, 10, "LGTM, thanks!"⟩
      (by decide)).1 (by decide)⟩

/-- Claim C7: a PR review increments lgtms at the resolved author exactly
when the author is allowed, the submission timestamp is present and in
the window, and the state is approved; a review passing the filter with
any other state changes nothing, a review with absent submission
timestamp changes nothing, and a filtered review changes nothing. -/
theorem review_state_gating (st : Stats) (review : Review) :
    (st.is_user_allowed (resolvedLogin review.user) = true →
      ∀ t, review.submitted_at = some t → st.within_time_range t = true →
      review.state = some ReviewState.approved →
      st.traverse_pull_request_reviews_step review =
        { st with lgtms := mapInc st.lgtms (resolvedLogin review.user) }) ∧
    (st.filter_pull_request_review review = false →
      review.state ≠ some ReviewState.approved →
      st.traverse_pull_request_reviews_step review = st) ∧
    (review.submitted_at = none →
      st.traverse_pull_request_reviews_step review = st) ∧
    (st.filter_pull_request_review review = true →
      st.traverse_pull_request_reviews_step review = st) := by
  refine ⟨fun ha t hsub hw hstate => ?_, fun hf hne => ?_, fun hsub => ?_,
    fun hf => ?_⟩
  · simp [Stats.traverse_pull_request_reviews_step,
      Stats.filter_pull_request_review, ha, hsub, hw, hstate, Stats.add_lgtm]
  · rcases hstate : review.state with _ | s
    · simp [Stats.traverse_pull_request_reviews_step, hf, hstate]
    · cases s <;> simp_all [Stats.traverse_pull_request_reviews_step, hf, hstate]
  · simp [Stats.traverse_pull_request_reviews_step,
      Stats.filter_pull_request_review, hsub]
  · simp [Stats.traverse_pull_request_reviews_step, hf]

/-- Witness for review_state_gating at a concrete input. -/
theorem review_state_gating_witness :
    st0.is_user_allowed "alice" = true ∧ st0.within_time_range 50 = true ∧
      st0.traverse_pull_request_reviews_step
          ⟨some ⟨"alice"⟩, some 50, some ReviewState.approved⟩ =
        { st0 with lgtms := mapInc st0.lgtms "alice" } :=
  ⟨by decide, by decide,
    (review_state_gating st0 ⟨some ⟨"alice"⟩, some 50, some ReviewState.approved⟩).1
      (by decide) 50 rfl (by decide) rfl⟩

/-- Claim C10: a PR review with an absent author field is bucketed under
the empty-string username: it increments lgtms at "" exactly when "" is
allow-listed, the submission timestamp is present and in the window, and
the state is approved; when "" is not allow-listed the review changes
nothing, and out-of-window or non-approved cases change nothing. -/
theorem authorless_review_bucketed_empty (st : Stats) (review : Review)
    (hu : review.user = none) :
    (st.is_user_allowed "" = true →
      ∀ t, review.submitted_at = some t → st.within_time_range t = true →
      review.state = some ReviewState.approved →
      st.traverse_pull_request_reviews_step review =
        { st with lgtms := mapInc st.lgtms "" }) ∧
    (st.is_user_allowed "" = false →
      st.traverse_pull_request_reviews_step review = st) ∧
    ((∀ t, review.submitted_at = some t → st.within_time_range t = false) →
      st.traverse_pull_request_reviews_step review = st) ∧
    (st.filter_pull_request_review review = false →
      review.state ≠ some ReviewState.approved →
      st.traverse_pull_request_reviews_step review = st) := by
  refine ⟨fun ha t hsub hw hstate => ?_, fun ha => ?_, fun hout => ?_,
    fun hf hne => ?_⟩
  · simp [Stats.traverse_pull_request_reviews_step,
      Stats.filter_pull_request_review, hu, resolvedLogin, ha, hsub, hw, hstate,
      Stats.add_lgtm]
  · simp [Stats.traverse_pull_request_reviews_step,
      Stats.filter_pull_request_review, hu, resolvedLogin, ha]
  · rcases hsub : review.submitted_at with _ | t
    · simp [Stats.traverse_pull_request_reviews_step,
        Stats.filter_pull_request_review, hsub]
    · simp [Stats.traverse_pull_request_reviews_step,
        Stats.filter_pull_request_review, hsub, hout t hsub]
  · rcases hstate : review.state with _ | s
    · simp [Stats.traverse_pull_request_reviews_step, hf, hstate]
    · cases s <;> simp_all [Stats.traverse_pull_request_reviews_step, hf, hstate]

/-- Witness for authorless_review_bucketed_empty at a concrete input. -/
theorem authorless_review_bucketed_empty_witness :
    st0.is_user_allowed "" = false ∧
      st0.traverse_pull_request_reviews_step
          ⟨none, some 50, some ReviewState.approved⟩ = st0 :=
  ⟨by decide,
    (authorless_review_bucketed_empty st0
      ⟨none, some 50, some ReviewState.approved⟩ rfl).2.1 (by decide)⟩

lemma foldl_labels {α : Type} (f : Stats → α → Stats)
    (hf : ∀ s x, (f s x).labels = s.labels) (l : List α) :
    ∀ s : Stats, (l.foldl f s).labels = s.labels := by
  induction l with
  | nil => intro s; rfl
  | cons x xs ih => intro s; rw [List.foldl_cons, ih, hf]

lemma traverse_issues_step_labels (st : Stats) (issue : Issue) :
    (st.traverse_issues_step issue).labels = st.labels := by
  simp only [Stats.traverse_issues_step]
  split
  · rfl
  · cases issue.pull_request <;> rfl

lemma traverse_issue_comments_step_labels (st : Stats) (comment : IssueComment) :
    (st.traverse_issue_comments_step comment).labels = st.labels := by
  simp only [Stats.traverse_issue_comments_step]
  split <;> rfl

lemma traverse_pull_request_comments_step_labels (st : Stats)
    (comment : PullComment) :
    (st.traverse_pull_request_comments_step comment).labels = st.labels := by
  simp only [Stats.traverse_pull_request_comments_step]
  split
  · rfl
  · split <;> rfl

lemma traverse_pull_request_reviews_step_labels (st : Stats) (review : Review) :
    (st.traverse_pull_request_reviews_step review).labels = st.labels := by
  simp only [Stats.traverse_pull_request_reviews_step]
  split
  · rfl
  · cases review.state with
    | none => rfl
    | some s => cases s <;> rfl

/-- Claim C9: the labels counter is never populated: Stats::new leaves it
empty, every traverse operation preserves it, and merging Stats whose
labels maps are empty yields an empty labels map, also over a whole
family folded with merge. -/
theorem labels_never_populated :
    (∀ (config : Config) (s e : Time), (Stats.new config s e).labels = emptyMap) ∧
    (∀ (st : Stats) (l : List Issue), (st.traverse_issues l).labels = st.labels) ∧
    (∀ (st : Stats) (l : List IssueComment),
      (st.traverse_issue_comments l).labels = st.labels) ∧
    (∀ (st : Stats) (l : List PullComment),
      (st.traverse_pull_request_comments l).labels = st.labels) ∧
    (∀ (st : Stats) (l : List Review),
      (st.traverse_pull_request_reviews l).labels = st.labels) ∧
    (∀ a b : Stats, a.labels = emptyMap → b.labels = emptyMap →
      (a.merge b).labels = emptyMap) ∧
    (∀ (acc : Stats) (l : List Stats), acc.labels = emptyMap →
      (∀ s ∈ l, s.labels = emptyMap) →
      (l.foldl Stats.merge acc).labels = emptyMap) := by
  have hmerge : ∀ a b : Stats, a.labels = emptyMap → b.labels = emptyMap →
      (a.merge b).labels = emptyMap := by
    intro a b ha hb
    show merge_map a.labels b.labels = emptyMap
    rw [ha, hb]
    funext k
    rfl
  refine ⟨fun config s e => rfl,
    fun st l => foldl_labels _ traverse_issues_step_labels l st,
    fun st l => foldl_labels _ traverse_issue_comments_step_labels l st,
    fun st l => foldl_labels _ traverse_pull_request_comments_step_labels l st,
    fun st l => foldl_labels _ traverse_pull_request_reviews_step_labels l st,
    hmerge, fun acc l => ?_⟩
  induction l generalizing acc with
  | nil => intro ha _; exact ha
  | cons s rest ih =>
    intro ha hl
    rw [List.foldl_cons]
    exact ih (acc.merge s)
      (hmerge acc s ha (hl s (List.mem_cons_self s rest)))
      (fun x hx => hl x (List.mem_cons_of_mem s hx))

/-- Witness for labels_never_populated at a concrete input. -/
theorem labels_never_populated_witness :
    st0.labels = emptyMap ∧ (st0.merge st0).labels = emptyMap :=
  ⟨rfl, labels_never_populated.2.2.2.2.2.1 st0 st0 rfl rfl⟩

lemma within_start (st : Stats) (hse : st.start_time ≤ st.end_time) :
    st.within_time_range st.start_time = true := by
  simp [Stats.within_time_range, hse]

lemma within_end (st : Stats) (hse : st.start_time ≤ st.end_time) :
    st.within_time_range st.end_time = true := by
  simp [Stats.within_time_range, hse]

lemma within_outside (st : Stats) (t : Time)
    (h : t < st.start_time ∨ st.end_time < t) :
    st.within_time_range t = false := by
  rcases h with h | h
  · have h1 : ¬ (st.start_time ≤ t) := not_le.mpr h
    simp [Stats.within_time_range, h1]
  · have h1 : ¬ (t ≤ st.end_time) := not_le.mpr h
    simp [Stats.within_time_range, h1]

lemma mapInc_ne (m : CounterMap) (u : String) : mapInc m u ≠ m := by
  intro h
  have hu := congrFun h u
  simp [mapInc] at hu
  cases hm : m u
  · rw [hm] at hu
    simp at hu
  · rw [hm] at hu
    simp at hu

lemma add_issue_ne (st : Stats) (u : String) : st.add_issue u ≠ st :=
  fun h => mapInc_ne st.issues u (congrArg Stats.issues h)

lemma add_pr_ne (st : Stats) (u : String) : st.add_pr u ≠ st :=
  fun h => mapInc_ne st.prs u (congrArg Stats.prs h)

lemma add_issue_comment_ne (st : Stats) (u : String) :
    st.add_issue_comment u ≠ st :=
  fun h => mapInc_ne st.issue_comments u (congrArg Stats.issue_comments h)

lemma add_pr_review_ne (st : Stats) (u : String) : st.add_pr_review u ≠ st :=
  fun h => mapInc_ne st.pr_reviews u (congrArg Stats.pr_reviews h)

lemma add_lgtm_ne (st : Stats) (u : String) : st.add_lgtm u ≠ st :=
  fun h => mapInc_ne st.lgtms u (congrArg Stats.lgtms h)

/-- Claim C5: the time window is closed on both ends: for a record by an
allowed author, a qualifying timestamp equal to start_time or end_time
passes the filter (the record is counted: for issues and comments the
per-record body strictly changes the Stats; for reviews it reaches the
state dispatch), while a record all of whose qualifying timestamps are
strictly before start_time or strictly after end_time is filtered out and
contributes nothing. -/
theorem time_window_closed_boundary (st : Stats)
    (hse : st.start_time ≤ st.end_time) :
    (∀ issue : Issue, st.is_user_allowed issue.user.login = true →
       issue.created_at = st.start_time ∨ issue.created_at = st.end_time →
       st.filter_issues issue = false ∧ st.traverse_issues_step issue ≠ st) ∧
    (∀ c : IssueComment, st.is_user_allowed c.user.login = true →
       (c.created_at = st.start_time ∨ c.created_at = st.end_time ∨
        c.updated_at = some st.start_time ∨ c.updated_at = some st.end_time) →
       st.filter_issue_comment c = false ∧
         st.traverse_issue_comments_step c ≠ st) ∧
    (∀ c : PullComment, st.is_user_allowed (resolvedLogin c.user) = true →
       (c.created_at = st.start_time ∨ c.created_at = st.end_time ∨
        c.updated_at = st.start_time ∨ c.updated_at = st.end_time) →
       st.filter_pull_request_comment c = false ∧
         st.traverse_pull_request_comments_step c ≠ st) ∧
    (∀ r : Review, st.is_user_allowed (resolvedLogin r.user) = true →
       (r.submitted_at = some st.start_time ∨
        r.submitted_at = some st.end_time) →
       st.filter_pull_request_review r = false) ∧
    (∀ issue : Issue,
       issue.created_at < st.start_time ∨ st.end_time < issue.created_at →
       st.filter_issues issue = true ∧ st.traverse_issues_step issue = st) ∧
    (∀ c : IssueComment,
       (c.created_at < st.start_time ∨ st.end_time < c.created_at) →
       (∀ t, c.updated_at = some t → t < st.start_time ∨ st.end_time < t) →
       st.filter_issue_comment c = true ∧
         st.traverse_issue_comments_step c = st) ∧
    (∀ c : PullComment,
       (c.created_at < st.start_time ∨ st.end_time < c.created_at) →
       (c.updated_at < st.start_time ∨ st.end_time < c.updated_at) →
       st.filter_pull_request_comment c = true ∧
         st.traverse_pull_request_comments_step c = st) ∧
    (∀ r : Review,
       (∀ t, r.submitted_at = some t → t < st.start_time ∨ st.end_time < t) →
       st.filter_pull_request_review r = true ∧
         st.traverse_pull_request_reviews_step r = st) := by
  refine ⟨fun issue ha hb => ?_, fun c ha hb => ?_, fun c ha hb => ?_,
    fun r ha hb => ?_, fun issue hout => ?_, fun c hc hup => ?_,
    fun c hc hup => ?_, fun r hout => ?_⟩
  · have hf : st.filter_issues issue = false := by
      rcases hb with hb | hb <;>
        simp [Stats.filter_issues, ha, hb, within_start st hse,
          within_end st hse]
    refine ⟨hf, ?_⟩
    simp only [Stats.traverse_issues_step, hf, if_false, Bool.false_eq_true]
    cases issue.pull_request
    · exact add_issue_ne st issue.user.login
    · exact add_pr_ne st issue.user.login
  · have hf : st.filter_issue_comment c = false := by
      rcases hb with hb | hb | hb | hb <;>
        simp [Stats.filter_issue_comment, ha, hb, within_start st hse,
          within_end st hse]
    refine ⟨hf, ?_⟩
    simp only [Stats.traverse_issue_comments_step, hf, if_false,
      Bool.false_eq_true]
    exact add_issue_comment_ne st c.user.login
  · have hf : st.filter_pull_request_comment c = false := by
      rcases hb with hb | hb | hb | hb <;>
        simp [Stats.filter_pull_request_comment, ha, hb, within_start st hse,
          within_end st hse]
    refine ⟨hf, ?_⟩
    simp only [Stats.traverse_pull_request_comments_step, hf, if_false,
      Bool.false_eq_true]
    split
    · exact add_lgtm_ne st (resolvedLogin c.user)
    · exact add_pr_review_ne st (resolvedLogin c.user)
  · rcases hb with hb | hb <;>
      simp [Stats.filter_pull_request_review, ha, hb, within_start st hse,
        within_end st hse]
  · have hf : st.filter_issues issue = true := by
      simp [Stats.filter_issues, within_outside st issue.created_at hout]
    exact ⟨hf, by simp [Stats.traverse_issues_step, hf]⟩
  · have hf : st.filter_issue_comment c = true := by
      rcases hu : c.updated_at with _ | t
      · simp [Stats.filter_issue_comment, hu,
          within_outside st c.created_at hc]
      · simp [Stats.filter_issue_comment, hu,
          within_outside st c.created_at hc,
          within_outside st t (hup t hu)]
    exact ⟨hf, by simp [Stats.traverse_issue_comments_step, hf]⟩
  · have hf : st.filter_pull_request_comment c = true := by
      simp [Stats.filter_pull_request_comment,
        within_outside st c.created_at hc, within_outside st c.updated_at hup]
    exact ⟨hf, by simp [Stats.traverse_pull_request_comments_step, hf]⟩
  · have hf : st.filter_pull_request_review r = true := by
      rcases hu : r.submitted_at with _ | t
      · simp [Stats.filter_pull_request_review, hu]
      · simp [Stats.filter_pull_request_review, hu,
          within_outside st t (hout t hu)]
    exact ⟨hf, by simp [Stats.traverse_pull_request_reviews_step, hf]⟩

/-- Witness for time_window_closed_boundary at a concrete input. -/
theorem time_window_closed_boundary_witness :
    st0.start_time ≤ st0.end_time ∧ st0.is_user_allowed "alice" = true ∧
      st0.filter_issues ⟨⟨"alice"⟩, none, 0⟩ = false ∧
      st0.traverse_issues_step ⟨⟨"alice"⟩, none, 0⟩ ≠ st0 :=
  ⟨by decide, by decide,
    ((time_window_closed_boundary st0 (by decide)).1 ⟨⟨"alice"⟩, none, 0⟩
      (by decide) (Or.inl rfl)).1,
    ((time_window_closed_boundary st0 (by decide)).1 ⟨⟨"alice"⟩, none, 0⟩
      (by decide) (Or.inl rfl)).2⟩

lemma mapInc_comm (m : CounterMap) (u v : String) :
    mapInc (mapInc m u) v = mapInc (mapInc m v) u := by
  funext k
  by_cases huv : u = v
  · subst huv; rfl
  · simp only [mapInc]
    by_cases hku : k = u <;> by_cases hkv : k = v <;>
      simp [hku, hkv, huv, Ne.symm huv]

lemma add_ic_add_lgtm_comm (st : Stats) (u v : String) :
    (st.add_issue_comment u).add_lgtm v = (st.add_lgtm v).add_issue_comment u :=
  rfl

lemma add_ic_add_pr_review_comm (st : Stats) (u v : String) :
    (st.add_issue_comment u).add_pr_review v
      = (st.add_pr_review v).add_issue_comment u :=
  rfl

lemma add_lgtm_add_pr_review_comm (st : Stats) (u v : String) :
    (st.add_lgtm u).add_pr_review v = (st.add_pr_review v).add_lgtm u :=
  rfl

lemma add_lgtm_add_lgtm_comm (st : Stats) (u v : String) :
    (st.add_lgtm u).add_lgtm v = (st.add_lgtm v).add_lgtm u := by
  simp only [Stats.add_lgtm]
  rw [mapInc_comm]

lemma step_ic_pc_comm (st : Stats) (c : IssueComment) (p : PullComment) :
    (st.traverse_issue_comments_step c).traverse_pull_request_comments_step p
      = (st.traverse_pull_request_comments_step p).traverse_issue_comments_step c := by
  have e1 : ∀ u, (st.add_issue_comment u).filter_pull_request_comment p
      = st.filter_pull_request_comment p := fun _ => rfl
  have e2 : ∀ u, (st.add_issue_comment u).is_comment_lgtm (rustTrim p.body)
      = st.is_comment_lgtm (rustTrim p.body) := fun _ => rfl
  have e3 : ∀ u, (st.add_lgtm u).filter_issue_comment c
      = st.filter_issue_comment c := fun _ => rfl
  have e4 : ∀ u, (st.add_pr_review u).filter_issue_comment c
      = st.filter_issue_comment c := fun _ => rfl
  by_cases h1 : st.filter_issue_comment c = true <;>
    by_cases h2 : st.filter_pull_request_comment p = true <;>
      by_cases h3 : st.is_comment_lgtm (rustTrim p.body) = true <;>
        simp [Stats.traverse_issue_comments_step,
          Stats.traverse_pull_request_comments_step, e1, e2, e3, e4, h1, h2, h3,
          add_ic_add_lgtm_comm, add_ic_add_pr_review_comm]

lemma step_ic_rv_comm (st : Stats) (c : IssueComment) (r : Review) :
    (st.traverse_issue_comments_step c).traverse_pull_request_reviews_step r
      = (st.traverse_pull_request_reviews_step r).traverse_issue_comments_step c := by
  have e1 : ∀ u, (st.add_issue_comment u).filter_pull_request_review r
      = st.filter_pull_request_review r := fun _ => rfl
  have e2 : ∀ u, (st.add_lgtm u).filter_issue_comment c
      = st.filter_issue_comment c := fun _ => rfl
  by_cases h1 : st.filter_issue_comment c = true <;>
    by_cases h2 : st.filter_pull_request_review r = true <;>
      rcases hs : r.state with _ | s <;>
        first
        | (cases s <;>
            simp [Stats.traverse_issue_comments_step,
              Stats.traverse_pull_request_reviews_step, e1, e2, h1, h2, hs,
              add_ic_add_lgtm_comm])
        | simp [Stats.traverse_issue_comments_step,
            Stats.traverse_pull_request_reviews_step, e1, e2, h1, h2, hs,
            add_ic_add_lgtm_comm]

lemma step_pc_rv_comm (st : Stats) (p : PullComment) (r : Review) :
    (st.traverse_pull_request_comments_step p).traverse_pull_request_reviews_step r
      = (st.traverse_pull_request_reviews_step r).traverse_pull_request_comments_step p := by
  have e1 : ∀ u, (st.add_lgtm u).filter_pull_request_comment p
      = st.filter_pull_request_comment p := fun _ => rfl
  have e2 : ∀ u, (st.add_lgtm u).is_comment_lgtm (rustTrim p.body)
      = st.is_comment_lgtm (rustTrim p.body) := fun _ => rfl
  have e3 : ∀ u, (st.add_lgtm u).filter_pull_request_review r
      = st.filter_pull_request_review r := fun _ => rfl
  have e4 : ∀ u, (st.add_pr_review u).filter_pull_request_review r
      = st.filter_pull_request_review r := fun _ => rfl
  by_cases h1 : st.filter_pull_request_comment p = true <;>
    by_cases h2 : st.filter_pull_request_review r = true <;>
      by_cases h3 : st.is_comment_lgtm (rustTrim p.body) = true <;>
        rcases hs : r.state with _ | s <;>
          first
          | (cases s <;>
              simp [Stats.traverse_pull_request_comments_step,
                Stats.traverse_pull_request_reviews_step, e1, e2, e3, e4,
                h1, h2, h3, hs, add_lgtm_add_lgtm_comm,
                add_lgtm_add_pr_review_comm])
          | simp [Stats.traverse_pull_request_comments_step,
              Stats.traverse_pull_request_reviews_step, e1, e2, e3, e4,
              h1, h2, h3, hs, add_lgtm_add_lgtm_comm,
              add_lgtm_add_pr_review_comm]

lemma foldl_single_comm {γ α β : Type} (f : γ → α → γ) (g : γ → β → γ)
    (hc : ∀ s x y, g (f s x) y = f (g s y) x) (x : α) (ys : List β) :
    ∀ s : γ, List.foldl g (f s x) ys = f (List.foldl g s ys) x := by
  induction ys with
  | nil => intro s; rfl
  | cons y ys ih =>
    intro s
    rw [List.foldl_cons, List.foldl_cons, hc, ih]

lemma foldl_foldl_comm {γ α β : Type} (f : γ → α → γ) (g : γ → β → γ)
    (hc : ∀ s x y, g (f s x) y = f (g s y) x) (xs : List α) (ys : List β) :
    ∀ s : γ, List.foldl g (List.foldl f s xs) ys
      = List.foldl f (List.foldl g s ys) xs := by
  induction xs with
  | nil => intro s; rfl
  | cons x xs ih =>
    intro s
    rw [List.foldl_cons, ih, List.foldl_cons,
      foldl_single_comm f g hc x ys s]

lemma traverse_ic_pc_comm (st : Stats) (ics : List IssueComment)
    (pcs : List PullComment) :
    (st.traverse_issue_comments ics).traverse_pull_request_comments pcs
      = (st.traverse_pull_request_comments pcs).traverse_issue_comments ics :=
  foldl_foldl_comm Stats.traverse_issue_comments_step
    Stats.traverse_pull_request_comments_step
    (fun s x y => step_ic_pc_comm s x y) ics pcs st

lemma traverse_ic_rv_comm (st : Stats) (ics : List IssueComment)
    (rvs : List Review) :
    (st.traverse_issue_comments ics).traverse_pull_request_reviews rvs
      = (st.traverse_pull_request_reviews rvs).traverse_issue_comments ics :=
  foldl_foldl_comm Stats.traverse_issue_comments_step
    Stats.traverse_pull_request_reviews_step
    (fun s x y => step_ic_rv_comm s x y) ics rvs st

lemma traverse_pc_rv_comm (st : Stats) (pcs : List PullComment)
    (rvs : List Review) :
    (st.traverse_pull_request_comments pcs).traverse_pull_request_reviews rvs
      = (st.traverse_pull_request_reviews rvs).traverse_pull_request_comments pcs :=
  foldl_foldl_comm Stats.traverse_pull_request_comments_step
    Stats.traverse_pull_request_reviews_step
    (fun s x y => step_pc_rv_comm s x y) pcs rvs st

/-- Claim C8: fold-order independence: folding the three post-issue
batches (issue comments, PR line comments, PR reviews) into a Stats value
in any of the six possible orders yields the same result, in particular
identical final counter maps. -/
theorem fold_order_independent (st : Stats) (ics : List IssueComment)
    (pcs : List PullComment) (rvs : List Review) :
    (((st.traverse_issue_comments ics).traverse_pull_request_comments
          pcs).traverse_pull_request_reviews rvs
        = ((st.traverse_issue_comments ics).traverse_pull_request_reviews
            rvs).traverse_pull_request_comments pcs) ∧
      (((st.traverse_issue_comments ics).traverse_pull_request_comments
          pcs).traverse_pull_request_reviews rvs
        = ((st.traverse_pull_request_comments pcs).traverse_issue_comments
            ics).traverse_pull_request_reviews rvs) ∧
      (((st.traverse_issue_comments ics).traverse_pull_request_comments
          pcs).traverse_pull_request_reviews rvs
        = ((st.traverse_pull_request_comments
            pcs).traverse_pull_request_reviews rvs).traverse_issue_comments
            ics) ∧
      (((st.traverse_issue_comments ics).traverse_pull_request_comments
          pcs).traverse_pull_request_reviews rvs
        = ((st.traverse_pull_request_reviews rvs).traverse_issue_comments
            ics).traverse_pull_request_comments pcs) ∧
      (((st.traverse_issue_comments ics).traverse_pull_request_comments
          pcs).traverse_pull_request_reviews rvs
        = ((st.traverse_pull_request_reviews
            rvs).traverse_pull_request_comments pcs).traverse_issue_comments
            ics) := by
  refine ⟨?_, ?_, ?_, ?_, ?_⟩
  · rw [traverse_pc_rv_comm]
  · rw [traverse_ic_pc_comm]
  · rw [traverse_ic_pc_comm, traverse_ic_rv_comm]
  · rw [traverse_pc_rv_comm, traverse_ic_rv_comm]
  · rw [traverse_pc_rv_comm, traverse_ic_rv_comm, traverse_ic_pc_comm]

end GhOverseer
